import Mathlib

/-!
Verification development for the Multi-Source Financial Data Resolution and
Valuation Engine (file `streamlit_app.py`).

The Python source is shallowly embedded: strings are Lean `String`s, the
relevant Python string methods (`strip`, `upper`, `isdigit`, substring tests,
`startswith`, `endswith`) are modelled explicitly over the character list of a
string, Python floats are modelled as rationals, and fallible Python
arithmetic (division, which raises `ZeroDivisionError` on a zero denominator)
is modelled with `Option`.  External provider calls (network I/O through
`yfinance` and `AkShare`) are modelled as oracle parameters.
-/

/-- Model of the Python whitespace test used by `str.strip`. -/
def pyCharIsWs (c : Char) : Bool :=
  c == (' ') || c == ('\t') || c == ('\n') || c == ('\r')

/-- Model of the Python decimal-digit test used by `str.isdigit`. -/
def pyCharIsDigit (c : Char) : Bool :=
  c == ('0') || c == ('1') || c == ('2') || c == ('3') || c == ('4') ||
  c == ('5') || c == ('6') || c == ('7') || c == ('8') || c == ('9')

/-- Lower-case to upper-case table for `str.upper` (ASCII letters). -/
def LOWER_UPPER : List (Char × Char) :=
  [(('a'), ('A')), (('b'), ('B')), (('c'), ('C')), (('d'), ('D')),
   (('e'), ('E')), (('f'), ('F')), (('g'), ('G')), (('h'), ('H')),
   (('i'), ('I')), (('j'), ('J')), (('k'), ('K')), (('l'), ('L')),
   (('m'), ('M')), (('n'), ('N')), (('o'), ('O')), (('p'), ('P')),
   (('q'), ('Q')), (('r'), ('R')), (('s'), ('S')), (('t'), ('T')),
   (('u'), ('U')), (('v'), ('V')), (('w'), ('W')), (('x'), ('X')),
   (('y'), ('Y')), (('z'), ('Z'))]

/-- Model of Python `str.upper` on a single character. -/
def pyCharUpper (c : Char) : Char :=
  ((LOWER_UPPER.find? (fun p => p.1 == c)).map Prod.snd).getD c

/-- Helper for `pyStrip`: removes trailing whitespace of a character list. -/
def dropEndWs (l : List Char) : List Char :=
  (l.reverse.dropWhile pyCharIsWs).reverse

/-- Model of Python `str.strip` (remove leading and trailing whitespace). -/
def pyStrip (s : String) : String :=
  String.mk (dropEndWs (s.data.dropWhile pyCharIsWs))

/-- Model of Python `str.upper`. -/
def pyUpper (s : String) : String :=
  String.mk (s.data.map pyCharUpper)

/-- Model of Python `str.isdigit`: nonempty and all characters are digits. -/
def pyIsDigit (s : String) : Bool :=
  !s.data.isEmpty && s.data.all pyCharIsDigit

/-- Model of the Python substring test `sub in s`. -/
def pyIn (sub s : String) : Bool :=
  decide (sub.data <:+: s.data)

/-- Model of Python `s.endswith(suffix)`. -/
def pyEndsWith (s suffix : String) : Bool :=
  decide (suffix.data <:+ s.data)

/-- The `STOCK_MAP` dictionary (ticker to display name), in insertion order. -/
def STOCK_MAP : List (String × String) :=
  [(("AAPL"), ("苹果")), (("MSFT"), ("微软")), (("GOOG"), ("谷歌")),
   (("AMZN"), ("亚马逊")), (("META"), ("Meta")), (("TSLA"), ("特斯拉")),
   (("NVDA"), ("英伟达")), (("AMD"), ("超威半导体")), (("TSM"), ("台积电")),
   (("ASML"), ("阿斯麦")), (("BABA"), ("阿里巴巴(美)")), (("PDD"), ("拼多多")),
   (("BRK-B"), ("伯克希尔哈撒韦")), (("V"), ("威士")), (("MA"), ("万事达")),
   (("COST"), ("开市客")), (("JPM"), ("摩根大通")), (("JNJ"), ("强生")),
   (("PG"), ("宝洁")), (("XOM"), ("埃克森美孚")), (("KO"), ("可口可乐")),
   (("PEP"), ("百事")), (("MCD"), ("麦当劳")), (("LLY"), ("礼来")),
   (("UNH"), ("联合健康")), (("0700.HK"), ("腾讯控股")),
   (("9988.HK"), ("阿里巴巴(港)")), (("3690.HK"), ("美团")),
   (("0388.HK"), ("香港交易所")), (("0941.HK"), ("中国移动")),
   (("0883.HK"), ("中国海洋石油")), (("1810.HK"), ("小米集团")),
   (("1024.HK"), ("快手")), (("1299.HK"), ("友邦保险")),
   (("0005.HK"), ("汇丰控股")), (("600519.SS"), ("贵州茅台")),
   (("000858.SZ"), ("五粮液")), (("600900.SS"), ("长江电力")),
   (("300750.SZ"), ("宁德时代")), (("600036.SS"), ("招商银行")),
   (("601318.SS"), ("中国平安")), (("600188.SS"), ("中煤能源")),
   (("601088.SS"), ("中国神华(A)")), (("600887.SS"), ("伊利股份")),
   (("600585.SS"), ("海螺水泥")), (("002714.SZ"), ("牧原股份")),
   (("600030.SS"), ("中信证券")), (("002594.SZ"), ("比亚迪")),
   (("300760.SZ"), ("迈瑞医疗")), (("300502.SZ"), ("新易盛")),
   (("600580.SS"), ("卧龙电驱")), (("600276.SS"), ("恒瑞医药"))]

/-- The `NAME_TO_TICKER` dictionary: the inversion of `STOCK_MAP` followed by
the `update` call.  Updated keys that already existed keep their original
position and (identical) value, so only the genuinely new alias keys are
appended, in the insertion order of the `update` literal. -/
def NAME_TO_TICKER : List (String × String) :=
  (STOCK_MAP.map (fun p => (p.2, p.1))) ++
  [(("腾讯"), ("0700.HK")), (("茅台"), ("600519.SS")), (("平安"), ("601318.SS")),
   (("中煤"), ("600188.SS")), (("神华"), ("601088.SS")), (("招行"), ("600036.SS")),
   (("伊利"), ("600887.SS")), (("卧龙"), ("600580.SS"))]

/-- The numeric branch ladder of `smart_parse_symbol` (the four explicit
`if` statements inside `if code.isdigit():`, falling through to `return code`). -/
def numeric_map (code : String) : String :=
  if code.data.length = 6 ∧ code.data.head? = some ('6') then code ++ (".SS")
  else if code.data.length = 6 ∧ (code.data.head? = some ('0') ∨ code.data.head? = some ('3')) then
    code ++ (".SZ")
  else if code.data.length = 4 then code ++ (".HK")
  else if code.data.length = 5 ∧ code.data.head? = some ('0') then
    String.mk (code.data.drop 1) ++ (".HK")
  else code

/-- Model of `smart_parse_symbol` (source lines 71-82): exact dictionary
lookup, then first substring match in dictionary insertion order, then the
numeric suffix ladder on the upper-cased input, else the upper-cased input. -/
def smart_parse_symbol (user_input : String) : String :=
  let clean := pyStrip user_input
  match NAME_TO_TICKER.find? (fun p => decide (p.1 = clean)) with
  | some p => p.2
  | none =>
    match NAME_TO_TICKER.find? (fun p => pyIn clean p.1) with
    | some p => p.2
    | none =>
      let code := pyUpper clean
      if pyIsDigit code then numeric_map code else code

/-- Python float division, which raises `ZeroDivisionError` on a zero
denominator; modelled as `Option`. -/
def pydiv (a b : ℚ) : Option ℚ :=
  if b = 0 then none else some (a / b)

/-- The `future_flows` loop of `calculate_dcf` (source lines 85-89): for
`i` in `1..n`, append `fcf * (1+growth)^i / (1+discount)^i`. -/
def dcf_flows (fcf growth_rate discount_rate : ℚ) : ℕ → Option (List ℚ)
  | 0 => some []
  | n + 1 => do
      let prev ← dcf_flows fcf growth_rate discount_rate n
      let disc ← pydiv (fcf * (1 + growth_rate) ^ (n + 1)) ((1 + discount_rate) ^ (n + 1))
      pure (prev ++ [disc])

/-- The terminal-value step of `calculate_dcf` (source lines 90-91):
`terminal_val = fcf*(1+g)^years*(1+t) / (d - t)` and then
`discounted_terminal = terminal_val / (1+d)^years`. -/
def terminal_contribution (fcf growth_rate discount_rate terminal_rate : ℚ) (years : ℕ) :
    Option ℚ := do
  let tv ← pydiv (fcf * (1 + growth_rate) ^ years * (1 + terminal_rate))
      (discount_rate - terminal_rate)
  pydiv tv ((1 + discount_rate) ^ years)

/-- Model of `calculate_dcf` (source lines 83-92).  Python defaults are
`terminal_rate = 0.03` and `years = 10`; callers below always pass them
explicitly. -/
def calculate_dcf (fcf growth_rate discount_rate terminal_rate : ℚ) (years : ℕ) : Option ℚ :=
  if fcf ≤ 0 then some 0
  else do
    let flows ← dcf_flows fcf growth_rate discount_rate years
    let dtv ← terminal_contribution fcf growth_rate discount_rate terminal_rate years
    pure (flows.sum + dtv)

/-- Two-stage DCF value as the specification states it: the sum over
`i = 1..years` of `fcf*(1+growth)^i/(1+discount)^i` plus the terminal value
`fcf*(1+growth)^years*(1+terminal)/(discount-terminal)` discounted by
`(1+discount)^years`.  This definition follows the wording of the spec and is
compared against `calculate_dcf`, which is translated from the source. -/
def dcf_spec (fcf growth_rate discount_rate terminal_rate : ℚ) (years : ℕ) : ℚ :=
  (∑ i ∈ Finset.Icc 1 years, fcf * (1 + growth_rate) ^ i / (1 + discount_rate) ^ i) +
    fcf * (1 + growth_rate) ^ years * (1 + terminal_rate) /
      (discount_rate - terminal_rate) / (1 + discount_rate) ^ years

theorem pydiv_ne (a b : ℚ) (h : b ≠ 0) : pydiv a b = some (a / b) := by
  simp [pydiv, h]

theorem dcf_flows_eq (fcf g d : ℚ) (h : (1 : ℚ) + d ≠ 0) (n : ℕ) :
    dcf_flows fcf g d n
      = some ((List.range n).map fun i => fcf * (1 + g) ^ (i + 1) / (1 + d) ^ (i + 1)) := by
  induction n with
  | zero => rfl
  | succ n ih =>
      rw [dcf_flows, ih, pydiv_ne _ _ (pow_ne_zero _ h)]
      simp [List.range_succ]

theorem range_map_sum (fcf g d : ℚ) (n : ℕ) :
    ((List.range n).map fun i => fcf * (1 + g) ^ (i + 1) / (1 + d) ^ (i + 1)).sum
      = ∑ i ∈ Finset.Icc 1 n, fcf * (1 + g) ^ i / (1 + d) ^ i := by
  induction n with
  | zero => simp
  | succ n ih =>
      rw [List.range_succ]
      simp only [List.map_append, List.map_cons, List.map_nil, List.sum_append,
        List.sum_cons, List.sum_nil, ih,
        Finset.sum_Icc_succ_top (Nat.le_add_left 1 n)]
      ring

theorem calculate_dcf_eq (fcf g d t : ℚ) (years : ℕ) (hf : 0 < fcf)
    (hd : (1 : ℚ) + d ≠ 0) (hdt : d - t ≠ 0) :
    calculate_dcf fcf g d t years = some (dcf_spec fcf g d t years) := by
  rw [calculate_dcf, if_neg (not_le.mpr hf), dcf_flows_eq fcf g d hd years,
    terminal_contribution, pydiv_ne _ _ hdt]
  simp [pydiv, pow_ne_zero years hd, dcf_spec, range_map_sum]

/-- C1: for `freeCashFlow > 0` and `discountRate > terminalRate = 3/100` (with
`years = 10`), `calculate_dcf` returns exactly the two-stage DCF value of the
specification (`dcf_spec`), and for `freeCashFlow ≤ 0` it returns `0`
regardless of the other parameters. -/
theorem calculate_dcf_two_stage (fcf g d t : ℚ) :
    (0 < fcf → 3 / 100 < d →
      calculate_dcf fcf g d (3 / 100) 10 = some (dcf_spec fcf g d (3 / 100) 10)) ∧
    (fcf ≤ 0 → calculate_dcf fcf g d t 10 = some 0) := by
  constructor
  · intro hf hd
    exact calculate_dcf_eq fcf g d (3 / 100) 10 hf (by linarith) (sub_ne_zero.mpr (ne_of_gt hd))
  · intro h
    simp [calculate_dcf, h]

/-- Witness for C1 at `fcf = 1`, `g = 0`, `d = 1/10`. -/
theorem calculate_dcf_two_stage_witness :
    (0 : ℚ) < 1 ∧ (3 / 100 : ℚ) < 1 / 10 ∧
      calculate_dcf 1 0 (1 / 10) (3 / 100) 10 = some (dcf_spec 1 0 (1 / 10) (3 / 100) 10) :=
  ⟨by norm_num, by norm_num,
    (calculate_dcf_two_stage 1 0 (1 / 10) (3 / 100)).1 (by norm_num) (by norm_num)⟩

/-- C2: the engine does not guard `discountRate > terminalRate`.  For positive
`fcf`, when the discount rate equals the terminal rate the terminal-value step
divides by zero and the whole computation fails (returns no number, modelling
the uncaught `ZeroDivisionError`); when the discount rate is below the
terminal rate (with all rates above -100%) the terminal-value denominator is
negative, the terminal contribution is a negative number, and the engine still
returns a value — in neither case is any validation error raised. -/
theorem calculate_dcf_unguarded (fcf g d t : ℚ) (hf : 0 < fcf) :
    calculate_dcf fcf g t t 10 = none ∧
    (d < t → -1 < g → -1 < d → -1 < t →
      terminal_contribution fcf g d t 10
          = some (fcf * (1 + g) ^ 10 * (1 + t) / (d - t) / (1 + d) ^ 10) ∧
        fcf * (1 + g) ^ 10 * (1 + t) / (d - t) / (1 + d) ^ 10 < 0 ∧
        (calculate_dcf fcf g d t 10).isSome = true) := by
  constructor
  · cases h : dcf_flows fcf g t 10 with
    | none => simp [calculate_dcf, not_le.mpr hf, h]
    | some l => simp [calculate_dcf, not_le.mpr hf, h, terminal_contribution, pydiv]
  · intro hdt hg hd ht
    have h1d : (0 : ℚ) < 1 + d := by linarith
    have hsub : d - t ≠ 0 := by intro h; rw [sub_eq_zero] at h; exact absurd h (ne_of_lt hdt)
    have hterm : terminal_contribution fcf g d t 10
        = some (fcf * (1 + g) ^ 10 * (1 + t) / (d - t) / (1 + d) ^ 10) := by
      rw [terminal_contribution, pydiv_ne _ _ hsub]
      simp [pydiv, pow_ne_zero 10 (ne_of_gt h1d)]
    refine ⟨hterm, ?_, ?_⟩
    · have hnum : 0 < fcf * (1 + g) ^ 10 * (1 + t) :=
        mul_pos (mul_pos hf (pow_pos (by linarith) 10)) (by linarith)
      have hneg : fcf * (1 + g) ^ 10 * (1 + t) / (d - t) < 0 :=
        div_neg_of_pos_of_neg hnum (by linarith)
      exact div_neg_of_neg_of_pos hneg (pow_pos h1d 10)
    · rw [calculate_dcf_eq fcf g d t 10 hf (ne_of_gt h1d) hsub]
      rfl

/-- Witness for C2 at `fcf = 100`, `g = 1/10`, `t = 3/100` and (for the
negative-denominator part) `d = 1/100 < t`. -/
theorem calculate_dcf_unguarded_witness :
    (0 : ℚ) < 100 ∧ (1 / 100 : ℚ) < 3 / 100 ∧
      calculate_dcf 100 (1 / 10) (3 / 100) (3 / 100) 10 = none ∧
      (calculate_dcf 100 (1 / 10) (1 / 100) (3 / 100) 10).isSome = true :=
  ⟨by norm_num, by norm_num,
    (calculate_dcf_unguarded 100 (1 / 10) (1 / 100) (3 / 100) (by norm_num)).1,
    ((calculate_dcf_unguarded 100 (1 / 10) (1 / 100) (3 / 100) (by norm_num)).2
      (by norm_num) (by norm_num) (by norm_num) (by norm_num)).2.2⟩

theorem dcf_spec_factor (fcf g d t : ℚ) (n : ℕ) :
    dcf_spec fcf g d t n = fcf * dcf_spec 1 g d t n := by
  rw [dcf_spec, dcf_spec]
  conv_rhs => rw [mul_add, Finset.mul_sum]
  congr 1
  · exact Finset.sum_congr rfl (fun i _ => by ring)
  · ring

theorem dcf_spec_one_pos (g d : ℚ) (hg : -1 < g) (hd : 3 / 100 < d) :
    0 < dcf_spec 1 g d (3 / 100) 10 := by
  have h1g : (0 : ℚ) < 1 + g := by linarith
  have h1d : (0 : ℚ) < 1 + d := by linarith
  refine add_pos (Finset.sum_pos (fun i _ => ?_) ⟨1, by decide⟩) ?_
  · rw [one_mul]
    exact div_pos (pow_pos h1g i) (pow_pos h1d i)
  · rw [one_mul]
    exact div_pos (div_pos (mul_pos (pow_pos h1g 10) (by norm_num)) (by linarith))
      (pow_pos h1d 10)

theorem dcf_spec_mono_fcf (fcf fcf' g d : ℚ) (hff : fcf < fcf')
    (hg : -1 < g) (hd : 3 / 100 < d) :
    dcf_spec fcf g d (3 / 100) 10 < dcf_spec fcf' g d (3 / 100) 10 := by
  rw [dcf_spec_factor fcf, dcf_spec_factor fcf']
  exact mul_lt_mul_of_pos_right hff (dcf_spec_one_pos g d hg hd)

theorem dcf_spec_mono_g (fcf g g' d : ℚ) (hf : 0 < fcf) (hg : -1 < g)
    (hgg : g < g') (hd : 3 / 100 < d) :
    dcf_spec fcf g d (3 / 100) 10 < dcf_spec fcf g' d (3 / 100) 10 := by
  have h1d : (0 : ℚ) < 1 + d := by linarith
  have h1g : (0 : ℚ) ≤ 1 + g := by linarith
  have hlt : (1 : ℚ) + g < 1 + g' := by linarith
  rw [dcf_spec, dcf_spec]
  refine add_lt_add (Finset.sum_lt_sum_of_nonempty ⟨1, by decide⟩ (fun i hi => ?_)) ?_
  · have hi1 : 1 ≤ i := (Finset.mem_Icc.mp hi).1
    exact div_lt_div_of_pos_right
      (mul_lt_mul_of_pos_left (pow_lt_pow_left₀ hlt h1g (by omega)) hf) (pow_pos h1d i)
  · refine div_lt_div_of_pos_right (div_lt_div_of_pos_right ?_ (by linarith)) (pow_pos h1d 10)
    have hpow : (1 + g) ^ 10 < (1 + g') ^ 10 := pow_lt_pow_left₀ hlt h1g (by norm_num)
    have h103 : (0 : ℚ) < 1 + 3 / 100 := by norm_num
    calc fcf * (1 + g) ^ 10 * (1 + 3 / 100)
        < fcf * (1 + g') ^ 10 * (1 + 3 / 100) := by
          exact mul_lt_mul_of_pos_right (mul_lt_mul_of_pos_left hpow hf) h103

theorem dcf_spec_anti_d (fcf g d d' : ℚ) (hf : 0 < fcf) (hg : -1 < g)
    (hd : 3 / 100 < d) (hdd : d < d') :
    dcf_spec fcf g d' (3 / 100) 10 < dcf_spec fcf g d (3 / 100) 10 := by
  have h1g : (0 : ℚ) < 1 + g := by linarith
  have h1d : (0 : ℚ) < 1 + d := by linarith
  have hpow : ∀ i : ℕ, i ≠ 0 → (1 + d) ^ i < (1 + d') ^ i := fun i hi =>
    pow_lt_pow_left₀ (by linarith) (le_of_lt h1d) hi
  rw [dcf_spec, dcf_spec]
  refine add_lt_add (Finset.sum_lt_sum_of_nonempty ⟨1, by decide⟩ (fun i hi => ?_)) ?_
  · have hi1 : 1 ≤ i := (Finset.mem_Icc.mp hi).1
    exact div_lt_div_of_pos_left (mul_pos hf (pow_pos h1g i)) (pow_pos h1d i)
      (hpow i (by omega))
  · rw [div_div, div_div]
    refine div_lt_div_of_pos_left
      (mul_pos (mul_pos hf (pow_pos h1g 10)) (by norm_num))
      (mul_pos (by linarith) (pow_pos h1d 10))
      (mul_lt_mul (by linarith) (le_of_lt (hpow 10 (by norm_num))) (pow_pos h1d 10)
        (by linarith))

/-- C3 counterexample: with `fcf = 1 > 0`, terminal rate `3/100`, discount
rate `4/100` (which exceeds the terminal rate and is positive), raising the
growth rate from `-3` to `-1` strictly DECREASES the returned value, so
`calculate_dcf` is not monotonically increasing in the growth rate over all
parameters satisfying the stated side conditions. -/
theorem calculate_dcf_not_monotone_growth :
    (0 : ℚ) < 1 ∧ (-3 : ℚ) < -1 ∧ (3 / 100 : ℚ) < 4 / 100 ∧ (0 : ℚ) < 4 / 100 ∧
      (calculate_dcf 1 (-1) (4 / 100) (3 / 100) 10).getD 0
        < (calculate_dcf 1 (-3) (4 / 100) (3 / 100) 10).getD 0 := by
  refine ⟨by norm_num, by norm_num, by norm_num, by norm_num, ?_⟩
  norm_num [calculate_dcf, dcf_flows, terminal_contribution, pydiv]

/-- C3 amended: for parameters with `discountRate > terminalRate = 3/100`
(hence positive) and growth rates above `-1` (growth cannot drop below -100%),
`calculate_dcf` is strictly increasing in positive `freeCashFlow` and in
`growthRate`, and strictly decreasing in `discountRate`, other arguments held
fixed. -/
theorem calculate_dcf_monotone (fcf fcf' g g' d d' : ℚ)
    (hf : 0 < fcf) (hff : fcf < fcf') (hg : -1 < g) (hgg : g < g')
    (hd : 3 / 100 < d) (hdd : d < d') :
    (calculate_dcf fcf g d (3 / 100) 10).getD 0
        < (calculate_dcf fcf' g d (3 / 100) 10).getD 0 ∧
      (calculate_dcf fcf g d (3 / 100) 10).getD 0
        < (calculate_dcf fcf g' d (3 / 100) 10).getD 0 ∧
      (calculate_dcf fcf g d' (3 / 100) 10).getD 0
        < (calculate_dcf fcf g d (3 / 100) 10).getD 0 := by
  have hd' : 3 / 100 < d' := lt_trans hd hdd
  rw [calculate_dcf_eq fcf g d (3 / 100) 10 hf (by intro h; nlinarith [h])
      (sub_ne_zero.mpr (ne_of_gt hd)),
    calculate_dcf_eq fcf' g d (3 / 100) 10 (lt_trans hf hff) (by intro h; nlinarith [h])
      (sub_ne_zero.mpr (ne_of_gt hd)),
    calculate_dcf_eq fcf g' d (3 / 100) 10 hf (by intro h; nlinarith [h])
      (sub_ne_zero.mpr (ne_of_gt hd)),
    calculate_dcf_eq fcf g d' (3 / 100) 10 hf (by intro h; nlinarith [h])
      (sub_ne_zero.mpr (ne_of_gt hd'))]
  simp only [Option.getD_some]
  exact ⟨dcf_spec_mono_fcf fcf fcf' g d hff hg hd,
    dcf_spec_mono_g fcf g g' d hf hg hgg hd,
    dcf_spec_anti_d fcf g d d' hf hg hd hdd⟩

/-- Witness for the amended C3 at `fcf : 1 < 2`, `g : 0 < 1`,
`d : 1/10 < 2/10`. -/
theorem calculate_dcf_monotone_witness :
    (0 : ℚ) < 1 ∧ (1 : ℚ) < 2 ∧ (-1 : ℚ) < 0 ∧ (0 : ℚ) < 1 ∧
      (3 / 100 : ℚ) < 1 / 10 ∧ (1 / 10 : ℚ) < 2 / 10 ∧
      ((calculate_dcf 1 0 (1 / 10) (3 / 100) 10).getD 0
          < (calculate_dcf 2 0 (1 / 10) (3 / 100) 10).getD 0 ∧
        (calculate_dcf 1 0 (1 / 10) (3 / 100) 10).getD 0
          < (calculate_dcf 1 1 (1 / 10) (3 / 100) 10).getD 0 ∧
        (calculate_dcf 1 0 (2 / 10) (3 / 100) 10).getD 0
          < (calculate_dcf 1 0 (1 / 10) (3 / 100) 10).getD 0) :=
  ⟨by norm_num, by norm_num, by norm_num, by norm_num, by norm_num, by norm_num,
    calculate_dcf_monotone 1 2 0 1 (1 / 10) (2 / 10) (by norm_num) (by norm_num)
      (by norm_num) (by norm_num) (by norm_num) (by norm_num)⟩

theorem lower_upper_vals_not_keys :
    LOWER_UPPER.all (fun p => (LOWER_UPPER.find? (fun q => q.1 == p.2)).isNone) = true := by
  decide

theorem lower_upper_no_ws :
    LOWER_UPPER.all (fun p => !(pyCharIsWs p.1) && !(pyCharIsWs p.2)) = true := by
  decide

theorem lower_upper_no_digit :
    LOWER_UPPER.all (fun p => !(pyCharIsDigit p.1)) = true := by
  decide

theorem pyCharUpper_idem (c : Char) : pyCharUpper (pyCharUpper c) = pyCharUpper c := by
  cases h : LOWER_UPPER.find? (fun p => p.1 == c) with
  | none => simp [pyCharUpper, h]
  | some p =>
      have hm : p ∈ LOWER_UPPER := List.mem_of_find?_eq_some h
      have hu : pyCharUpper c = p.2 := by simp [pyCharUpper, h]
      have hn : LOWER_UPPER.find? (fun q => q.1 == p.2) = none := by
        have := (List.all_eq_true.mp lower_upper_vals_not_keys) p hm
        exact Option.isNone_iff_eq_none.mp this
      rw [hu]
      simp [pyCharUpper, hn]

theorem pyCharUpper_ws (c : Char) : pyCharIsWs (pyCharUpper c) = pyCharIsWs c := by
  cases h : LOWER_UPPER.find? (fun p => p.1 == c) with
  | none => simp [pyCharUpper, h]
  | some p =>
      have hm : p ∈ LOWER_UPPER := List.mem_of_find?_eq_some h
      have hc : p.1 = c := by simpa using List.find?_some h
      have hw := (List.all_eq_true.mp lower_upper_no_ws) p hm
      simp only [Bool.and_eq_true, Bool.not_eq_true'] at hw
      have hu : pyCharUpper c = p.2 := by simp [pyCharUpper, h]
      rw [hu, hw.2, ← hc, hw.1]

theorem pyCharUpper_digit (c : Char) (hc : pyCharIsDigit c = true) : pyCharUpper c = c := by
  have hn : LOWER_UPPER.find? (fun p => p.1 == c) = none := by
    rw [List.find?_eq_none]
    intro p hp hbeq
    have h1 : p.1 = c := by simpa using hbeq
    have h2 := (List.all_eq_true.mp lower_upper_no_digit) p hp
    simp only [Bool.not_eq_true'] at h2
    rw [h1, hc] at h2
    cases h2
  simp [pyCharUpper, hn]

theorem pyCharIsDigit_cases (c : Char) (hc : pyCharIsDigit c = true) :
    c = ('0') ∨ c = ('1') ∨ c = ('2') ∨ c = ('3') ∨ c = ('4') ∨
    c = ('5') ∨ c = ('6') ∨ c = ('7') ∨ c = ('8') ∨ c = ('9') := by
  simpa [pyCharIsDigit, or_assoc] using hc

theorem pyCharIsDigit_not_ws (c : Char) (hc : pyCharIsDigit c = true) :
    pyCharIsWs c = false := by
  rcases pyCharIsDigit_cases c hc with h|h|h|h|h|h|h|h|h|h <;> subst h <;> decide

theorem dropWhile_eq_self_of_all {p : Char → Bool} {l : List Char}
    (h : ∀ c ∈ l, p c = false) : l.dropWhile p = l := by
  cases l with
  | nil => rfl
  | cons a t => simp [List.dropWhile_cons, h a (by simp)]

theorem dropWhile_head_false {p : Char → Bool} :
    ∀ (l : List Char) (c : Char) (t : List Char), l.dropWhile p = c :: t → p c = false := by
  intro l
  induction l with
  | nil => intro c t h; cases h
  | cons a l ih =>
      intro c t h
      rw [List.dropWhile_cons] at h
      by_cases ha : p a = true
      · rw [if_pos ha] at h
        exact ih c t h
      · rw [if_neg ha] at h
        cases h
        simpa using ha

theorem dropWhile_idem {p : Char → Bool} (l : List Char) :
    (l.dropWhile p).dropWhile p = l.dropWhile p := by
  cases h : l.dropWhile p with
  | nil => rfl
  | cons c t =>
      have := dropWhile_head_false l c t h
      simp [List.dropWhile_cons, this]

theorem strip_of_all_nonws (s : String) (h : ∀ c ∈ s.data, pyCharIsWs c = false) :
    pyStrip s = s := by
  rw [pyStrip, dropEndWs, dropWhile_eq_self_of_all h,
    dropWhile_eq_self_of_all (fun c hc => h c (List.mem_reverse.mp hc)),
    List.reverse_reverse]

theorem upper_of_all (s : String) (h : ∀ c ∈ s.data, pyCharUpper c = c) :
    pyUpper s = s := by
  rw [pyUpper, List.map_congr_left h, List.map_id' s.data]

theorem dropWhile_ws_map_upper (l : List Char) :
    (l.map pyCharUpper).dropWhile pyCharIsWs
      = (l.dropWhile pyCharIsWs).map pyCharUpper := by
  induction l with
  | nil => rfl
  | cons a t ih =>
      rw [List.map_cons, List.dropWhile_cons, List.dropWhile_cons, pyCharUpper_ws a]
      cases h : pyCharIsWs a with
      | false => simp [h]
      | true => simp [h, ih]

theorem dropEndWs_map_upper (l : List Char) :
    dropEndWs (l.map pyCharUpper) = (dropEndWs l).map pyCharUpper := by
  rw [dropEndWs, dropEndWs, ← List.map_reverse, dropWhile_ws_map_upper, List.map_reverse]

theorem strip_upper (s : String) : pyStrip (pyUpper s) = pyUpper (pyStrip s) := by
  rw [pyStrip, pyUpper, pyStrip, pyUpper]
  show String.mk (dropEndWs ((s.data.map pyCharUpper).dropWhile pyCharIsWs))
      = String.mk ((dropEndWs (s.data.dropWhile pyCharIsWs)).map pyCharUpper)
  rw [dropWhile_ws_map_upper, dropEndWs_map_upper]

theorem upper_upper (s : String) : pyUpper (pyUpper s) = pyUpper s := by
  rw [pyUpper, pyUpper]
  show String.mk ((s.data.map pyCharUpper).map pyCharUpper) = String.mk (s.data.map pyCharUpper)
  rw [List.map_map]
  exact congrArg String.mk (List.map_congr_left (fun c _ => pyCharUpper_idem c))

theorem dropEndWs_prefix (l : List Char) : dropEndWs l <+: l := by
  have h1 : l.reverse.dropWhile pyCharIsWs <:+ l.reverse := List.dropWhile_suffix _
  have h2 := List.reverse_prefix.mpr h1
  rwa [List.reverse_reverse] at h2

theorem strip_idem (s : String) : pyStrip (pyStrip s) = pyStrip s := by
  rw [pyStrip]
  set a := s.data.dropWhile pyCharIsWs with ha
  set b := dropEndWs a with hb
  show pyStrip (String.mk b) = String.mk b
  have hstep1 : b.dropWhile pyCharIsWs = b := by
    cases hc : b with
    | nil => rfl
    | cons c t =>
        obtain ⟨r, hr⟩ := dropEndWs_prefix a
        rw [← hb, hc] at hr
        have hfa : pyCharIsWs c = false := by
          refine dropWhile_head_false s.data c (t ++ r) ?_
          rw [← ha, ← hr]
          rfl
        simp [List.dropWhile_cons, hfa]
  have hstep2 : dropEndWs b = b := by
    have hbr : b.reverse = a.reverse.dropWhile pyCharIsWs := by
      rw [hb, dropEndWs, List.reverse_reverse]
    rw [dropEndWs, hbr, dropWhile_idem, ← hbr, List.reverse_reverse]
  rw [pyStrip]
  show String.mk (dropEndWs (b.dropWhile pyCharIsWs)) = String.mk b
  rw [hstep1, hstep2]

theorem keys_digit_free :
    NAME_TO_TICKER.all (fun p => p.1.data.all (fun c => !(pyCharIsDigit c))) = true := by
  decide

theorem keys_digit_free_mem (p : String × String) (hp : p ∈ NAME_TO_TICKER)
    (c : Char) (hc : c ∈ p.1.data) : pyCharIsDigit c = false := by
  have h1 := (List.all_eq_true.mp keys_digit_free) p hp
  have h2 := (List.all_eq_true.mp h1) c hc
  simpa using h2

theorem find_exact_none_of_digit (s : String) (c : Char) (hc : c ∈ s.data)
    (hd : pyCharIsDigit c = true) :
    NAME_TO_TICKER.find? (fun p => decide (p.1 = s)) = none := by
  rw [List.find?_eq_none]
  intro p hp hdec
  have h1 : p.1 = s := of_decide_eq_true hdec
  have h2 : pyCharIsDigit c = false := keys_digit_free_mem p hp c (by rw [h1]; exact hc)
  rw [hd] at h2
  cases h2

theorem find_infix_none_of_digit (s : String) (c : Char) (hc : c ∈ s.data)
    (hd : pyCharIsDigit c = true) :
    NAME_TO_TICKER.find? (fun p => pyIn s p.1) = none := by
  rw [List.find?_eq_none]
  intro p hp hdec
  have h1 : s.data <:+: p.1.data := of_decide_eq_true hdec
  have h2 : pyCharIsDigit c = false := keys_digit_free_mem p hp c (h1.subset hc)
  rw [hd] at h2
  cases h2

theorem smart_parse_exact (x : String) (p : String × String)
    (h : NAME_TO_TICKER.find? (fun q => decide (q.1 = pyStrip x)) = some p) :
    smart_parse_symbol x = p.2 := by
  simp [smart_parse_symbol, h]

theorem smart_parse_sub (x : String) (p : String × String)
    (h1 : NAME_TO_TICKER.find? (fun q => decide (q.1 = pyStrip x)) = none)
    (h2 : NAME_TO_TICKER.find? (fun q => pyIn (pyStrip x) q.1) = some p) :
    smart_parse_symbol x = p.2 := by
  simp [smart_parse_symbol, h1, h2]

theorem smart_parse_num (x : String)
    (h1 : NAME_TO_TICKER.find? (fun q => decide (q.1 = pyStrip x)) = none)
    (h2 : NAME_TO_TICKER.find? (fun q => pyIn (pyStrip x) q.1) = none)
    (h3 : pyIsDigit (pyUpper (pyStrip x)) = true) :
    smart_parse_symbol x = numeric_map (pyUpper (pyStrip x)) := by
  simp [smart_parse_symbol, h1, h2, h3]

theorem smart_parse_fallback (x : String)
    (h1 : NAME_TO_TICKER.find? (fun q => decide (q.1 = pyStrip x)) = none)
    (h2 : NAME_TO_TICKER.find? (fun q => pyIn (pyStrip x) q.1) = none)
    (h3 : pyIsDigit (pyUpper (pyStrip x)) = false) :
    smart_parse_symbol x = pyUpper (pyStrip x) := by
  simp [smart_parse_symbol, h1, h2, h3]

theorem all_digit_of_isDigit (s : String) (h : pyIsDigit s = true) :
    s.data ≠ [] ∧ ∀ c ∈ s.data, pyCharIsDigit c = true := by
  rw [pyIsDigit, Bool.and_eq_true] at h
  refine ⟨?_, List.all_eq_true.mp h.2⟩
  have := h.1
  simp only [Bool.not_eq_true', List.isEmpty_eq_false_iff_exists_mem] at this
  obtain ⟨x, hx⟩ := this
  exact List.ne_nil_of_mem hx

theorem strip_of_digit (s : String) (h : ∀ c ∈ s.data, pyCharIsDigit c = true) :
    pyStrip s = s :=
  strip_of_all_nonws s (fun c hc => pyCharIsDigit_not_ws c (h c hc))

theorem upper_of_digit (s : String) (h : ∀ c ∈ s.data, pyCharIsDigit c = true) :
    pyUpper s = s :=
  upper_of_all s (fun c hc => pyCharUpper_digit c (h c hc))

/-- C6: on every purely numeric input, the exact-match and substring-match
branches fail (the name index contains no digits), so `smart_parse_symbol`
applies the numeric ladder: 6-digit codes starting with 6 get the `.SS`
suffix, 6-digit codes starting with 0 or 3 get `.SZ`, 4-digit codes get
`.HK`, 5-digit codes starting with 0 lose the leading digit and get `.HK`,
and every other numeric input is returned unchanged (upper-casing a digit
string is the identity).  The function is total and deterministic. -/
theorem smart_parse_numeric_total (s : String) (hs : pyIsDigit s = true) :
    (s.data.length = 6 → s.data.head? = some ('6') →
      smart_parse_symbol s = s ++ (".SS")) ∧
    (s.data.length = 6 → (s.data.head? = some ('0') ∨ s.data.head? = some ('3')) →
      smart_parse_symbol s = s ++ (".SZ")) ∧
    (s.data.length = 4 → smart_parse_symbol s = s ++ (".HK")) ∧
    (s.data.length = 5 → s.data.head? = some ('0') →
      smart_parse_symbol s = String.mk (s.data.drop 1) ++ (".HK")) ∧
    (¬(s.data.length = 6 ∧ (s.data.head? = some ('6') ∨ s.data.head? = some ('0') ∨
        s.data.head? = some ('3'))) →
      s.data.length ≠ 4 → ¬(s.data.length = 5 ∧ s.data.head? = some ('0')) →
      smart_parse_symbol s = s) := by
  obtain ⟨hne, hall⟩ := all_digit_of_isDigit s hs
  obtain ⟨c, hc⟩ := List.exists_mem_of_ne_nil s.data hne
  have hstrip : pyStrip s = s := strip_of_digit s hall
  have hupper : pyUpper s = s := upper_of_digit s hall
  have hnum : smart_parse_symbol s = numeric_map s := by
    have h := smart_parse_num s
      (by rw [hstrip]; exact find_exact_none_of_digit s c hc (hall c hc))
      (by rw [hstrip]; exact find_infix_none_of_digit s c hc (hall c hc))
      (by rw [hstrip, hupper]; exact hs)
    rwa [hstrip, hupper] at h
  refine ⟨?_, ?_, ?_, ?_, ?_⟩
  · intro h6 hh
    rw [hnum, numeric_map, if_pos ⟨h6, hh⟩]
  · intro h6 hh
    have hn1 : ¬(s.data.length = 6 ∧ s.data.head? = some ('6')) := by
      rintro ⟨-, hx⟩
      rcases hh with h0 | h3
      · rw [h0] at hx
        exact absurd (Option.some.inj hx) (by decide)
      · rw [h3] at hx
        exact absurd (Option.some.inj hx) (by decide)
    rw [hnum, numeric_map, if_neg hn1, if_pos ⟨h6, hh⟩]
  · intro h4
    have hn1 : ¬(s.data.length = 6 ∧ s.data.head? = some ('6')) := by
      rintro ⟨h6, -⟩; omega
    have hn2 : ¬(s.data.length = 6 ∧ (s.data.head? = some ('0') ∨
        s.data.head? = some ('3'))) := by
      rintro ⟨h6, -⟩; omega
    rw [hnum, numeric_map, if_neg hn1, if_neg hn2, if_pos h4]
  · intro h5 h0
    have hn1 : ¬(s.data.length = 6 ∧ s.data.head? = some ('6')) := by
      rintro ⟨h6, -⟩; omega
    have hn2 : ¬(s.data.length = 6 ∧ (s.data.head? = some ('0') ∨
        s.data.head? = some ('3'))) := by
      rintro ⟨h6, -⟩; omega
    have hn3 : s.data.length ≠ 4 := by omega
    rw [hnum, numeric_map, if_neg hn1, if_neg hn2, if_neg hn3, if_pos ⟨h5, h0⟩]
  · intro hnA hn4 hn5
    have hn1 : ¬(s.data.length = 6 ∧ s.data.head? = some ('6')) := by
      rintro ⟨h6, hx⟩; exact hnA ⟨h6, Or.inl hx⟩
    have hn2 : ¬(s.data.length = 6 ∧ (s.data.head? = some ('0') ∨
        s.data.head? = some ('3'))) := by
      rintro ⟨h6, hx⟩
      rcases hx with hx | hx
      · exact hnA ⟨h6, Or.inr (Or.inl hx)⟩
      · exact hnA ⟨h6, Or.inr (Or.inr hx)⟩
    rw [hnum, numeric_map, if_neg hn1, if_neg hn2, if_neg hn4, if_neg hn5]

/-- Witness for C6 on the boundary inputs named by the specification. -/
theorem smart_parse_numeric_total_witness :
    smart_parse_symbol ("600000") = ("600000.SS") ∧
    smart_parse_symbol ("000001") = ("000001.SZ") ∧
    smart_parse_symbol ("300001") = ("300001.SZ") ∧
    smart_parse_symbol ("599999") = ("599999") := by
  refine ⟨?_, ?_, ?_, ?_⟩
  · rw [(smart_parse_numeric_total ("600000") (by decide)).1 (by decide) (by decide)]
    decide
  · rw [(smart_parse_numeric_total ("000001") (by decide)).2.1 (by decide)
      (Or.inl (by decide))]
    decide
  · rw [(smart_parse_numeric_total ("300001") (by decide)).2.1 (by decide)
      (Or.inr (by decide))]
    decide
  · rw [(smart_parse_numeric_total ("599999") (by decide)).2.2.2.2 (by decide) (by decide)
      (by decide)]

theorem tickers_fixed_decide :
    NAME_TO_TICKER.all (fun p => decide (smart_parse_symbol p.2 = p.2)) = true := by
  decide

theorem tickers_fixed (p : String × String) (hp : p ∈ NAME_TO_TICKER) :
    smart_parse_symbol p.2 = p.2 :=
  of_decide_eq_true ((List.all_eq_true.mp tickers_fixed_decide) p hp)

theorem isDigit_false_of_mem (s : String) (c : Char) (hc : c ∈ s.data)
    (h : pyCharIsDigit c = false) : pyIsDigit s = false := by
  cases h2 : s.data.all pyCharIsDigit with
  | false => simp [pyIsDigit, h2]
  | true => exact absurd ((List.all_eq_true.mp h2) c hc) (by simp [h])

theorem smart_parse_fixed_of_props (y : String)
    (hdig : ∃ c ∈ y.data, pyCharIsDigit c = true)
    (hws : ∀ c ∈ y.data, pyCharIsWs c = false)
    (hup : ∀ c ∈ y.data, pyCharUpper c = c)
    (hnd : pyIsDigit y = false) :
    smart_parse_symbol y = y := by
  obtain ⟨c, hc, hcd⟩ := hdig
  have hstrip : pyStrip y = y := strip_of_all_nonws y hws
  have hupper : pyUpper y = y := upper_of_all y hup
  rw [smart_parse_fallback y
    (by rw [hstrip]; exact find_exact_none_of_digit y c hc hcd)
    (by rw [hstrip]; exact find_infix_none_of_digit y c hc hcd)
    (by rw [hstrip, hupper]; exact hnd), hstrip, hupper]

theorem smart_parse_append_suffix (c' suf : String)
    (hdig : ∀ c ∈ c'.data, pyCharIsDigit c = true) (hne : c'.data ≠ [])
    (hsw : ∀ c ∈ suf.data, pyCharIsWs c = false ∧ pyCharUpper c = c)
    (hdot : ('.') ∈ suf.data) :
    smart_parse_symbol (c' ++ suf) = c' ++ suf := by
  obtain ⟨c, hc⟩ := List.exists_mem_of_ne_nil c'.data hne
  have hdata : (c' ++ suf).data = c'.data ++ suf.data := String.data_append c' suf
  apply smart_parse_fixed_of_props
  · exact ⟨c, by rw [hdata]; exact List.mem_append_left _ hc, hdig c hc⟩
  · intro a ha
    rw [hdata] at ha
    rcases List.mem_append.mp ha with h | h
    · exact pyCharIsDigit_not_ws a (hdig a h)
    · exact (hsw a h).1
  · intro a ha
    rw [hdata] at ha
    rcases List.mem_append.mp ha with h | h
    · exact pyCharUpper_digit a (hdig a h)
    · exact (hsw a h).2
  · exact isDigit_false_of_mem (c' ++ suf) ('.')
      (by rw [hdata]; exact List.mem_append_right _ hdot) (by decide)

theorem numeric_map_fixed (code : String) (hcd : pyIsDigit code = true) :
    smart_parse_symbol (numeric_map code) = numeric_map code := by
  obtain ⟨hne, hall⟩ := all_digit_of_isDigit code hcd
  rw [numeric_map]
  split_ifs with h1 h2 h3 h4
  · exact smart_parse_append_suffix code (".SS") hall hne (by decide) (by decide)
  · exact smart_parse_append_suffix code (".SZ") hall hne (by decide) (by decide)
  · exact smart_parse_append_suffix code (".HK") hall hne (by decide) (by decide)
  · have hlen : (code.data.drop 1).length = 4 := by
      rw [List.length_drop, h4.1]
    refine smart_parse_append_suffix (String.mk (code.data.drop 1)) (".HK")
      (fun c hc => hall c (List.drop_subset 1 code.data hc)) ?_ (by decide) (by decide)
    intro h
    rw [show (String.mk (code.data.drop 1)).data = code.data.drop 1 from rfl] at h
    rw [h] at hlen
    cases hlen
  · obtain ⟨c, hc⟩ := List.exists_mem_of_ne_nil code.data hne
    have hstrip : pyStrip code = code := strip_of_digit code hall
    have hupper : pyUpper code = code := upper_of_digit code hall
    have hnum : smart_parse_symbol code = numeric_map code := by
      have h := smart_parse_num code
        (by rw [hstrip]; exact find_exact_none_of_digit code c hc (hall c hc))
        (by rw [hstrip]; exact find_infix_none_of_digit code c hc (hall c hc))
        (by rw [hstrip, hupper]; exact hcd)
      rwa [hstrip, hupper] at h
    rw [hnum, numeric_map, if_neg h1, if_neg h2, if_neg h3, if_neg h4]

theorem smart_parse_step (x : String) :
    smart_parse_symbol (smart_parse_symbol x) = smart_parse_symbol x ∨
    ∃ p ∈ NAME_TO_TICKER, smart_parse_symbol (smart_parse_symbol x) = p.2 := by
  cases h1 : NAME_TO_TICKER.find? (fun q => decide (q.1 = pyStrip x)) with
  | some p =>
      left
      rw [smart_parse_exact x p h1]
      exact tickers_fixed p (List.mem_of_find?_eq_some h1)
  | none =>
    cases h2 : NAME_TO_TICKER.find? (fun q => pyIn (pyStrip x) q.1) with
    | some p =>
        left
        rw [smart_parse_sub x p h1 h2]
        exact tickers_fixed p (List.mem_of_find?_eq_some h2)
    | none =>
      by_cases h3 : pyIsDigit (pyUpper (pyStrip x)) = true
      · left
        rw [smart_parse_num x h1 h2 h3]
        exact numeric_map_fixed _ h3
      · have h3f : pyIsDigit (pyUpper (pyStrip x)) = false := by simpa using h3
        have hfb := smart_parse_fallback x h1 h2 h3f
        have hsy : pyStrip (pyUpper (pyStrip x)) = pyUpper (pyStrip x) := by
          rw [strip_upper, strip_idem]
        have huy : pyUpper (pyUpper (pyStrip x)) = pyUpper (pyStrip x) := upper_upper _
        rw [hfb]
        cases g1 : NAME_TO_TICKER.find?
            (fun q => decide (q.1 = pyStrip (pyUpper (pyStrip x)))) with
        | some p =>
            right
            exact ⟨p, List.mem_of_find?_eq_some g1, smart_parse_exact _ p g1⟩
        | none =>
          cases g2 : NAME_TO_TICKER.find?
              (fun q => pyIn (pyStrip (pyUpper (pyStrip x))) q.1) with
          | some p =>
              right
              exact ⟨p, List.mem_of_find?_eq_some g2, smart_parse_sub _ p g1 g2⟩
          | none =>
              left
              rw [smart_parse_fallback _ g1 g2 (by rw [hsy, huy]; exact h3f), hsy, huy]

/-- C7 counterexample: `smart_parse_symbol` is not idempotent.  The input
`m` upper-cases to `M` (which is not an exact or substring match of any name,
since the only Latin letters in the name index are in `Meta`), but applying
the normalizer again to `M` finds the substring match `Meta` and returns the
ticker `META`. -/
theorem smart_parse_not_idempotent :
    smart_parse_symbol (smart_parse_symbol ("m")) ≠ smart_parse_symbol ("m") := by
  decide

/-- C7 amended: the normalizer is not idempotent, but it stabilizes after two
applications: for every input string, a third application of
`smart_parse_symbol` returns the same result as the second.  (Every output is
either a ticker of the name index — a fixed point — or a string that maps to
such a ticker in one more step, as the counterexample input `m` does.) -/
theorem smart_parse_stabilizes (x : String) :
    smart_parse_symbol (smart_parse_symbol (smart_parse_symbol x))
      = smart_parse_symbol (smart_parse_symbol x) := by
  rcases smart_parse_step x with h | ⟨p, hp, h⟩
  · rw [h]
    exact h
  · rw [h]
    exact tickers_fixed p hp

/-- A `yfinance` `info` dictionary restricted to the fields read by
`fetch_one` (source lines 128-141).  For `freeCashflow` and `earningsGrowth`
the outer `Option` is key presence (`info.get` would return the default) and
the inner `Option` is an explicit `None` value stored under the key; for the
remaining fields an absent key and a stored `None` behave identically in the
source (`info.get(k, 0)` followed by `or 0`, or a direct default), so one
`Option` suffices. -/
structure YfInfo where
  shortName : Option String := none
  marketCap : Option ℚ := none
  currentPrice : Option ℚ := none
  regularMarketPrice : Option ℚ := none
  returnOnEquity : Option ℚ := none
  freeCashflow : Option (Option ℚ) := none
  operatingCashflow : Option ℚ := none
  capitalExpenditures : Option ℚ := none
  earningsGrowth : Option (Option ℚ) := none
deriving DecidableEq

/-- The free-cash-flow selection of `fetch_one` (source lines 134-138):
`fcf = info.get('freeCashflow', 0)`; only when the stored value is an
explicit `None` is the figure derived from operating cash flow and capital
expenditure (`op + cap` for negative-signed capex, else `op - cap`); an
absent key yields the default `0`. -/
def select_fcf (info : YfInfo) : ℚ :=
  match info.freeCashflow with
  | none => 0
  | some none =>
      let op := info.operatingCashflow.getD 0
      let cap := info.capitalExpenditures.getD 0
      if cap < 0 then op + cap else op - cap
  | some (some v) => v

/-- The growth-rate selection of `fetch_one` (source line 141):
`min(max(info.get('earningsGrowth', 0.05) or 0.05, 0.02), 0.25)`.  A missing
key, a stored `None` and a stored `0` (falsy) all fall back to `0.05`. -/
def select_growth (eg : Option (Option ℚ)) : ℚ :=
  let raw : ℚ :=
    match eg with
    | none => 5 / 100
    | some none => 5 / 100
    | some (some v) => if v = 0 then 5 / 100 else v
  min (max raw (2 / 100)) (25 / 100)

/-- The `ADR_FIX` dictionary of `fetch_hunter_data_concurrent` (source line
122): `{"PDD": 7.25, "BABA": 7.25, "TSM": 32.5}`. -/
def ADR_FIX : List (String × ℚ) :=
  [(("PDD"), 29 / 4), (("BABA"), 29 / 4), (("TSM"), 65 / 2)]

/-- Python `round(x, 2)` (banker's rounding to two decimals), modelled over
exact rationals. -/
def roundHalfEven (q : ℚ) : ℤ :=
  let f := Int.floor q
  let r := q - f
  if r < 1 / 2 then f
  else if 1 / 2 < r then f + 1
  else if 2 ∣ f then f else f + 1

/-- Two-decimal rounding used for the row fields of `fetch_one`. -/
def pyRound2 (q : ℚ) : ℚ :=
  (roundHalfEven (q * 100) : ℚ) / 100

/-- One row of the snapshot table built by `fetch_one` (source lines
144-149), with the Chinese column labels renamed to identifiers:
`code` 代码, `name` 名称, `price` 现价, `upside_pct` 潜在涨幅%,
`dcf_val` DCF估值, `roe_pct` ROE%, `fcf_yield_pct` FCF收益率%,
`mktcap_b` 市值(B). -/
structure HunterRow where
  code : String
  name : String
  price : ℚ
  upside_pct : ℚ
  dcf_val : ℚ
  roe_pct : ℚ
  fcf_yield_pct : ℚ
  mktcap_b : ℚ
deriving DecidableEq

/-- Result of `fetch_one` for one raw ticker, distinguishing the filter
rejection at source lines 125-126 (an early `return None` with no exception
involved) from an exception caught by the bare `except` at line 150 (the
provider call raising, or a `ZeroDivisionError` inside `calculate_dcf`). -/
inductive FetchOneResult where
  | filtered : FetchOneResult
  | errored : FetchOneResult
  | row : HunterRow → FetchOneResult
deriving DecidableEq

/-- Model of `fetch_one` (source lines 123-150).  The `yfinance` call is an
oracle from the parsed symbol to `none` (the call raised) or the `info`
dictionary. -/
def fetch_one_result (oracle : String → Option YfInfo) (discount_rate : ℚ)
    (raw_sym : String) : FetchOneResult :=
  let symbol := smart_parse_symbol raw_sym
  if ¬ (STOCK_MAP.any (fun p => decide (p.1 = symbol))) ∧
      ¬ (pyEndsWith symbol (".SS") ∨ pyEndsWith symbol (".SZ") ∨ pyEndsWith symbol (".HK"))
  then FetchOneResult.filtered
  else
    match oracle symbol with
    | none => FetchOneResult.errored
    | some info =>
      let cn_name :=
        match (STOCK_MAP.find? (fun p => decide (p.1 = symbol))).map Prod.snd with
        | some n => n
        | none => info.shortName.getD symbol
      let mkt_cap := info.marketCap.getD 0
      let price := info.currentPrice.getD (info.regularMarketPrice.getD 0)
      let roe := info.returnOnEquity.getD 0
      let fcf := select_fcf info
      let fix_rate := ((ADR_FIX.find? (fun p => decide (p.1 = symbol))).map Prod.snd).getD 1
      let fcf_usd := fcf / fix_rate
      let growth := select_growth info.earningsGrowth
      match calculate_dcf fcf_usd growth (discount_rate / 100) (3 / 100) 10 with
      | none => FetchOneResult.errored
      | some intrinsic =>
        let upside := if 0 < mkt_cap then (intrinsic - mkt_cap) / mkt_cap else 0
        FetchOneResult.row
          { code := symbol
            name := cn_name
            price := price
            upside_pct := pyRound2 (upside * 100)
            dcf_val := pyRound2 (price * (1 + upside))
            roe_pct := pyRound2 (roe * 100)
            fcf_yield_pct := if 0 < mkt_cap then pyRound2 (fcf_usd / mkt_cap * 100) else 0
            mktcap_b := pyRound2 (mkt_cap / 1000000000) }

/-- The value of `fetch_one` as its caller sees it: a row, or `None`. -/
def fetch_one (oracle : String → Option YfInfo) (discount_rate : ℚ)
    (raw_sym : String) : Option HunterRow :=
  match fetch_one_result oracle discount_rate raw_sym with
  | FetchOneResult.row r => some r
  | _ => none

/-- Model of `fetch_hunter_data_concurrent` (source lines 121-156): map
`fetch_one` over the tickers (the thread pool preserves order) and keep the
non-`None` results. -/
def fetch_hunter_data_concurrent (oracle : String → Option YfInfo) (discount_rate : ℚ)
    (tickers : List String) : List HunterRow :=
  tickers.filterMap (fetch_one oracle discount_rate)

/-- Count of tickers whose individual resolution raised an error. -/
def errored_count (oracle : String → Option YfInfo) (discount_rate : ℚ)
    (tickers : List String) : ℕ :=
  tickers.countP (fun t =>
    match fetch_one_result oracle discount_rate t with
    | FetchOneResult.errored => true
    | _ => false)

/-- Count of tickers rejected by the symbol-eligibility filter. -/
def filtered_count (oracle : String → Option YfInfo) (discount_rate : ℚ)
    (tickers : List String) : ℕ :=
  tickers.countP (fun t =>
    match fetch_one_result oracle discount_rate t with
    | FetchOneResult.filtered => true
    | _ => false)

/-- C5 counterexample oracle: every symbol resolves to a fully populated
`info` dictionary, so no provider call errors. -/
def oracleOk : String → Option YfInfo := fun _ =>
  some { shortName := some ("Foo")
         marketCap := some 1000000000
         currentPrice := some 10
         regularMarketPrice := some 10
         returnOnEquity := some (1 / 5)
         freeCashflow := some (some 100000000)
         operatingCashflow := some 90000000
         capitalExpenditures := some (-10000000)
         earningsGrowth := some (some (1 / 10)) }

/-- C5 counterexample: the batch `["FOO"]` has `N = 1` tickers and `K = 0`
resolution errors (the oracle never raises and `FOO` is rejected by the
symbol-eligibility filter before any provider call), yet the returned
collection has 0 rows, not `N - K = 1`. -/
theorem fetch_hunter_filter_not_error :
    (("FOO") :: ([] : List String)).length = 1 ∧
    errored_count oracleOk 9 (("FOO") :: []) = 0 ∧
    (fetch_hunter_data_concurrent oracleOk 9 (("FOO") :: [])).length = 0 ∧
    (fetch_hunter_data_concurrent oracleOk 9 (("FOO") :: [])).length ≠
      (("FOO") :: ([] : List String)).length - errored_count oracleOk 9 (("FOO") :: []) := by
  decide

/-- C5 amended: for every oracle, discount rate and ticker list, the number
of returned rows is `N - K - F`, where `K` counts tickers whose individual
resolution raised an error and `F` counts tickers rejected by the symbol
eligibility filter (so exactly `N - K` whenever every ticker passes the
filter); the batch function is total (no exception escapes it) and acts
independently per ticker: it distributes over list concatenation, so one
ticker's failure cannot abort or alter the processing of the others. -/
theorem fetch_hunter_partial_failure (oracle : String → Option YfInfo) (d : ℚ)
    (tickers l₁ l₂ : List String) :
    (fetch_hunter_data_concurrent oracle d tickers).length
        + errored_count oracle d tickers + filtered_count oracle d tickers
      = tickers.length ∧
    fetch_hunter_data_concurrent oracle d (l₁ ++ l₂)
      = fetch_hunter_data_concurrent oracle d l₁ ++ fetch_hunter_data_concurrent oracle d l₂ := by
  constructor
  · induction tickers with
    | nil => rfl
    | cons t ts ih =>
        simp only [fetch_hunter_data_concurrent, errored_count, filtered_count,
          List.filterMap_cons, List.countP_cons, List.length_cons] at ih ⊢
        cases h : fetch_one_result oracle d t with
        | filtered =>
            simp [fetch_one, h]
            omega
        | errored =>
            simp [fetch_one, h]
            omega
        | row r =>
            simp [fetch_one, h]
            omega
  · exact List.filterMap_append l₁ l₂ (fetch_one oracle d)

/-- C8 counterexample: when no analyst estimate is present the growth rate
used by `fetch_one` is the uniform constant `0.05`, for every symbol — it is
not a market-segment-specific default such as roughly 12% for tech or 6% for
value symbols. -/
theorem select_growth_uniform_fallback :
    select_growth none = 5 / 100 ∧ select_growth none ≠ 12 / 100 ∧
      select_growth none ≠ 6 / 100 := by
  have h : select_growth none = 5 / 100 := by
    simp only [select_growth]
    rw [max_eq_left (by norm_num), min_eq_left (by norm_num)]
  refine ⟨h, ?_, ?_⟩
  · rw [h]
    norm_num
  · rw [h]
    norm_num

/-- C8 amended: a supplied nonzero analyst estimate is clamped to the
interval `[0.02, 0.25]` (returned unchanged inside the interval, saturated at
the endpoints outside it, and the result always lies in the interval); a
missing key, an explicit null and a zero estimate all fall back to the single
uniform constant `0.05`, independent of the market segment of the symbol. -/
theorem select_growth_clamp (eg : Option (Option ℚ)) (v : ℚ) :
    (2 / 100 ≤ select_growth eg ∧ select_growth eg ≤ 25 / 100) ∧
    (v ≠ 0 → 2 / 100 ≤ v → v ≤ 25 / 100 → select_growth (some (some v)) = v) ∧
    (v ≠ 0 → v ≤ 2 / 100 → select_growth (some (some v)) = 2 / 100) ∧
    (v ≠ 0 → 25 / 100 ≤ v → select_growth (some (some v)) = 25 / 100) ∧
    select_growth none = 5 / 100 ∧ select_growth (some none) = 5 / 100 ∧
    select_growth (some (some 0)) = 5 / 100 := by
  refine ⟨⟨?_, ?_⟩, ?_, ?_, ?_, ?_, ?_, ?_⟩
  · simp only [select_growth]
    exact le_min (le_max_right _ _) (by norm_num)
  · simp only [select_growth]
    exact min_le_right _ _
  · intro h0 h2 h25
    simp only [select_growth, if_neg h0]
    rw [max_eq_left h2, min_eq_left h25]
  · intro h0 h2
    simp only [select_growth, if_neg h0]
    rw [max_eq_right h2, min_eq_left (by norm_num)]
  · intro h0 h25
    simp only [select_growth, if_neg h0]
    rw [max_eq_left (le_trans (by norm_num) h25), min_eq_right h25]
  · simp only [select_growth]
    rw [max_eq_left (by norm_num), min_eq_left (by norm_num)]
  · simp only [select_growth]
    rw [max_eq_left (by norm_num), min_eq_left (by norm_num)]
  · have h : select_growth (some (some 0)) = min (max (5 / 100 : ℚ) (2 / 100)) (25 / 100) := by
      simp [select_growth]
    rw [h, max_eq_left (by norm_num), min_eq_left (by norm_num)]

/-- Witness for the amended C8: bounds at a missing estimate, and identity on
the in-range estimate `1/10`. -/
theorem select_growth_clamp_witness :
    ((2 / 100 : ℚ) ≤ select_growth none ∧ select_growth none ≤ 25 / 100) ∧
      select_growth (some (some (1 / 10))) = 1 / 10 :=
  ⟨(select_growth_clamp none (1 / 10)).1,
    (select_growth_clamp none (1 / 10)).2.1 (by norm_num) (by norm_num) (by norm_num)⟩

/-- C9 counterexample `info` dictionary: the `freeCashflow` key is absent
altogether, while operating cash flow (100) and a negative-signed capital
expenditure (-20) are reported. -/
def infoAbsent : YfInfo :=
  { freeCashflow := none
    operatingCashflow := some 100
    capitalExpenditures := some (-20) }

/-- C9 counterexample: when the provider does not report the `freeCashflow`
key at all, `fetch_one` uses the `info.get` default `0` — it does NOT derive
operating cash flow minus the capital-expenditure magnitude (which would be
`100 - 20 = 80` here). -/
theorem select_fcf_absent_zero :
    infoAbsent.freeCashflow = none ∧
    select_fcf infoAbsent = 0 ∧
    infoAbsent.operatingCashflow.getD 0 - |infoAbsent.capitalExpenditures.getD 0| = 80 ∧
    select_fcf infoAbsent ≠ 80 := by
  have h0 : select_fcf infoAbsent = 0 := rfl
  refine ⟨rfl, h0, ?_, ?_⟩
  · have h1 : infoAbsent.operatingCashflow.getD 0 - |infoAbsent.capitalExpenditures.getD 0|
        = (100 : ℚ) - |(-20 : ℚ)| := rfl
    rw [h1, abs_of_neg (by norm_num : (-20 : ℚ) < 0)]
    norm_num
  · rw [h0]
    norm_num

/-- C9 amended: the derivation `operating cash flow minus the magnitude of
capital expenditure` is applied exactly when the provider reports the
`freeCashflow` key with an explicit null value; a directly reported figure is
used as-is, and an absent key falls back to zero (no derivation). -/
theorem select_fcf_derivation (info : YfInfo) (v : ℚ) :
    (info.freeCashflow = some none →
      select_fcf info
        = info.operatingCashflow.getD 0 - |info.capitalExpenditures.getD 0|) ∧
    (info.freeCashflow = none → select_fcf info = 0) ∧
    (info.freeCashflow = some (some v) → select_fcf info = v) := by
  refine ⟨?_, ?_, ?_⟩
  · intro h
    simp only [select_fcf, h]
    by_cases hc : info.capitalExpenditures.getD 0 < 0
    · rw [if_pos hc, abs_of_neg hc]
      ring
    · rw [if_neg hc, abs_of_nonneg (not_lt.mp hc)]
  · intro h
    simp [select_fcf, h]
  · intro h
    simp [select_fcf, h]

/-- Witness `info` dictionary for the amended C9: `freeCashflow` present but
null, operating cash flow 50, capital expenditure -10. -/
def infoDerive : YfInfo :=
  { freeCashflow := some none
    operatingCashflow := some 50
    capitalExpenditures := some (-10) }

/-- Witness for the amended C9 at `infoDerive`: the derived figure is
`50 - |-10| = 40`. -/
theorem select_fcf_derivation_witness :
    select_fcf infoDerive
      = infoDerive.operatingCashflow.getD 0 - |infoDerive.capitalExpenditures.getD 0| :=
  (select_fcf_derivation infoDerive 0).1 rfl

/-- Outcome of the inner `try` body of `fetch_akshare_data` (source lines
186-247): either some step raised (the `except` then returns the degraded
`(None, None, None, symbol)` tuple) or a spot-price row was assembled, whose
`regularMarketPrice` may still be missing. -/
inductive AkInner where
  | fails : AkInner
  | ok : Option ℚ → AkInner
deriving DecidableEq

/-- Value or failure of a call to `fetch_akshare_data` as its caller sees it:
an exception escaping (`ConnectionError` when the module is missing,
`NotImplementedError` for `.HK` symbols), the degraded `info is None` tuple,
or an `info` dictionary carrying the given `regularMarketPrice`. -/
inductive AkFetchResult where
  | raises : AkFetchResult
  | degraded : AkFetchResult
  | data : Option ℚ → AkFetchResult
deriving DecidableEq

/-- The part of a `yfinance` result that the cascade inspects (source lines
283-290): whether `stock.info` is nonempty, and its `regularMarketPrice`.
`raises` models the provider call itself raising. -/
structure YfData where
  has_info : Bool
  regularMarketPrice : Option ℚ
deriving DecidableEq

/-- A `yfinance` call outcome. -/
inductive YfOutcome where
  | raises : YfOutcome
  | ok : YfData → YfOutcome
deriving DecidableEq

/-- Environment of one `fetch_main_stock_data` call: whether the AkShare
module imported (`ak is not None`), and the two provider oracles.  (The
Tushare block at source lines 261-268 is a `pass`, so it needs no oracle.) -/
structure CascadeEnv where
  ak_loaded : Bool
  akInner : AkInner
  yf : YfOutcome
deriving DecidableEq

/-- Model of `fetch_akshare_data` (source lines 174-247). -/
def fetch_akshare_data (env : CascadeEnv) (symbol : String) : AkFetchResult :=
  if env.ak_loaded = false then AkFetchResult.raises
  else if pyEndsWith symbol (".HK") then AkFetchResult.raises
  else
    match env.akInner with
    | AkInner.fails => AkFetchResult.degraded
    | AkInner.ok price => AkFetchResult.data price

/-- The providers the cascade can attempt. -/
inductive Provider where
  | akshare : Provider
  | yfinance : Provider
deriving DecidableEq

/-- Outcome of the cascade: a snapshot price from the named provider, or the
unresolved sentinel `(None, None, None, symbol)` of source line 319. -/
inductive Resolution where
  | resolved : Provider → ℚ → Resolution
  | unresolved : Resolution
deriving DecidableEq

/-- The `yfinance` fallback block of `fetch_main_stock_data` (source lines
281-319): raise unless `info` is nonempty and `regularMarketPrice` is not
`None`; the bare `except` converts any raise into the unresolved tuple. -/
def yf_step : YfOutcome → Resolution
  | YfOutcome.raises => Resolution.unresolved
  | YfOutcome.ok d =>
    if d.has_info then
      match d.regularMarketPrice with
      | some p => Resolution.resolved Provider.yfinance p
      | none => Resolution.unresolved
    else Resolution.unresolved

/-- Test for a domestic-market suffix (source line 258). -/
def is_domestic (symbol : String) : Bool :=
  pyEndsWith symbol (".SS") || pyEndsWith symbol (".SZ") || pyEndsWith symbol (".HK")

/-- Model of `fetch_main_stock_data` (source lines 253-319), returning both
the ordered list of providers attempted and the outcome.  AkShare is
attempted only for domestic symbols with the module loaded, and its result is
accepted only when `info` is present and `regularMarketPrice` is truthy
(nonzero); any AkShare failure falls through to `yfinance`. -/
def fetch_main_stock_data (env : CascadeEnv) (symbol : String) :
    List Provider × Resolution :=
  if is_domestic symbol && env.ak_loaded then
    match fetch_akshare_data env symbol with
    | AkFetchResult.data (some p) =>
      if p = 0 then ([Provider.akshare, Provider.yfinance], yf_step env.yf)
      else ([Provider.akshare], Resolution.resolved Provider.akshare p)
    | _ => ([Provider.akshare, Provider.yfinance], yf_step env.yf)
  else ([Provider.yfinance], yf_step env.yf)

/-- Whether an AkShare result would be accepted by the cascade guard at
source line 274. -/
def akAccepts : AkFetchResult → Bool
  | AkFetchResult.data (some p) => decide (p ≠ 0)
  | _ => false

/-- Whether a `yfinance` outcome passes the validity check at source lines
284-290. -/
def yfAccepts : YfOutcome → Bool
  | YfOutcome.raises => false
  | YfOutcome.ok d => d.has_info && d.regularMarketPrice.isSome

/-- Acceptance of each provider in a given environment. -/
def providerAccepts (env : CascadeEnv) (symbol : String) : Provider → Bool
  | Provider.akshare => akAccepts (fetch_akshare_data env symbol)
  | Provider.yfinance => yfAccepts env.yf

theorem yf_step_unresolved_iff (y : YfOutcome) :
    yf_step y = Resolution.unresolved ↔ yfAccepts y = false := by
  cases y with
  | raises => simp [yf_step, yfAccepts]
  | ok d =>
      cases hinfo : d.has_info <;> cases hp : d.regularMarketPrice <;>
        simp [yf_step, yfAccepts, hinfo, hp]

theorem yf_step_resolved (y : YfOutcome) (q : Provider) (price : ℚ)
    (h : yf_step y = Resolution.resolved q price) :
    q = Provider.yfinance ∧ yfAccepts y = true := by
  cases y with
  | raises => simp [yf_step] at h
  | ok d =>
      cases hinfo : d.has_info with
      | false => simp [yf_step, hinfo] at h
      | true =>
          cases hp : d.regularMarketPrice with
          | none => simp [yf_step, hinfo, hp] at h
          | some p =>
              simp only [yf_step, hinfo, hp, if_true] at h
              obtain ⟨h1, h2⟩ := Resolution.resolved.inj h
              exact ⟨h1.symm, by simp [yfAccepts, hinfo, hp]⟩

theorem cascade_conj_yf_only (env : CascadeEnv) (symbol : String)
    (hF : fetch_main_stock_data env symbol = ([Provider.yfinance], yf_step env.yf)) :
    ((fetch_main_stock_data env symbol).2 = Resolution.unresolved ↔
      ∀ p ∈ (fetch_main_stock_data env symbol).1, providerAccepts env symbol p = false) ∧
    (∀ q price, (fetch_main_stock_data env symbol).2 = Resolution.resolved q price →
      providerAccepts env symbol q = true ∧
        (fetch_main_stock_data env symbol).1.getLast? = some q) := by
  constructor
  · rw [hF]
    simp [providerAccepts, yf_step_unresolved_iff]
  · intro q price hres
    rw [hF] at hres
    obtain ⟨hq, hacc⟩ := yf_step_resolved env.yf q price hres
    subst hq
    rw [hF]
    exact ⟨by simp [providerAccepts, hacc], rfl⟩

theorem cascade_conj_both (env : CascadeEnv) (symbol : String)
    (hF : fetch_main_stock_data env symbol
      = ([Provider.akshare, Provider.yfinance], yf_step env.yf))
    (hakf : providerAccepts env symbol Provider.akshare = false) :
    ((fetch_main_stock_data env symbol).2 = Resolution.unresolved ↔
      ∀ p ∈ (fetch_main_stock_data env symbol).1, providerAccepts env symbol p = false) ∧
    (∀ q price, (fetch_main_stock_data env symbol).2 = Resolution.resolved q price →
      providerAccepts env symbol q = true ∧
        (fetch_main_stock_data env symbol).1.getLast? = some q) := by
  constructor
  · have hakf2 : akAccepts (fetch_akshare_data env symbol) = false := hakf
    rw [hF]
    simp [yf_step_unresolved_iff, hakf2, providerAccepts]
  · intro q price hres
    rw [hF] at hres
    obtain ⟨hq, hacc⟩ := yf_step_resolved env.yf q price hres
    subst hq
    rw [hF]
    exact ⟨by simp [providerAccepts, hacc], rfl⟩

theorem cascade_conj_ak (env : CascadeEnv) (symbol : String) (p0 : ℚ)
    (hF : fetch_main_stock_data env symbol
      = ([Provider.akshare], Resolution.resolved Provider.akshare p0))
    (haka : providerAccepts env symbol Provider.akshare = true) :
    ((fetch_main_stock_data env symbol).2 = Resolution.unresolved ↔
      ∀ p ∈ (fetch_main_stock_data env symbol).1, providerAccepts env symbol p = false) ∧
    (∀ q price, (fetch_main_stock_data env symbol).2 = Resolution.resolved q price →
      providerAccepts env symbol q = true ∧
        (fetch_main_stock_data env symbol).1.getLast? = some q) := by
  constructor
  · rw [hF]
    simp [haka]
  · intro q price hres
    rw [hF] at hres
    obtain ⟨hq, hp⟩ := Resolution.resolved.inj hres
    subst hq
    rw [hF]
    exact ⟨haka, rfl⟩

/-- Core facts about the cascade: a non-domestic symbol skips AkShare
entirely and goes straight to `yfinance`; a domestic symbol with the AkShare
module loaded attempts AkShare first and `yfinance` only if AkShare is not
accepted; the cascade resolves with (exactly) the first provider whose
result carries a valid price, falling through on provider failure or missing
price, and it yields the unresolved outcome precisely when every attempted
provider failed. -/
theorem cascade_resolution_core (env : CascadeEnv) (symbol : String) :
    (is_domestic symbol = false →
      (fetch_main_stock_data env symbol).1 = [Provider.yfinance]) ∧
    (is_domestic symbol = true → env.ak_loaded = true →
      (fetch_main_stock_data env symbol).1 =
        if providerAccepts env symbol Provider.akshare = true then [Provider.akshare]
        else [Provider.akshare, Provider.yfinance]) ∧
    ((fetch_main_stock_data env symbol).2 = Resolution.unresolved ↔
      ∀ p ∈ (fetch_main_stock_data env symbol).1, providerAccepts env symbol p = false) ∧
    (∀ q price, (fetch_main_stock_data env symbol).2 = Resolution.resolved q price →
      providerAccepts env symbol q = true ∧
        (fetch_main_stock_data env symbol).1.getLast? = some q) := by
  cases hdom : is_domestic symbol with
  | false =>
      have hF : fetch_main_stock_data env symbol = ([Provider.yfinance], yf_step env.yf) := by
        simp [fetch_main_stock_data, hdom]
      obtain ⟨c1, c2⟩ := cascade_conj_yf_only env symbol hF
      exact ⟨fun _ => by rw [hF], fun h => by simp [hdom] at h, c1, c2⟩
  | true =>
      cases hak : env.ak_loaded with
      | false =>
          have hF : fetch_main_stock_data env symbol
              = ([Provider.yfinance], yf_step env.yf) := by
            simp [fetch_main_stock_data, hdom, hak]
          obtain ⟨c1, c2⟩ := cascade_conj_yf_only env symbol hF
          exact ⟨fun h => by simp [hdom] at h,
            fun _ h => by simp [hak] at h, c1, c2⟩
      | true =>
          cases hres : fetch_akshare_data env symbol with
          | data price =>
              cases price with
              | none =>
                  have hakf : providerAccepts env symbol Provider.akshare = false := by
                    simp [providerAccepts, akAccepts, hres]
                  have hF : fetch_main_stock_data env symbol
                      = ([Provider.akshare, Provider.yfinance], yf_step env.yf) := by
                    simp [fetch_main_stock_data, hdom, hak, hres]
                  obtain ⟨c1, c2⟩ := cascade_conj_both env symbol hF hakf
                  exact ⟨fun h => by simp [hdom] at h,
                    fun _ _ => by rw [hF, hakf]; rfl, c1, c2⟩
              | some p =>
                  by_cases hp : p = 0
                  · have hakf : providerAccepts env symbol Provider.akshare = false := by
                      simp [providerAccepts, akAccepts, hres, hp]
                    have hF : fetch_main_stock_data env symbol
                        = ([Provider.akshare, Provider.yfinance], yf_step env.yf) := by
                      simp [fetch_main_stock_data, hdom, hak, hres, hp]
                    obtain ⟨c1, c2⟩ := cascade_conj_both env symbol hF hakf
                    exact ⟨fun h => by simp [hdom] at h,
                      fun _ _ => by rw [hF, hakf]; rfl, c1, c2⟩
                  · have haka : providerAccepts env symbol Provider.akshare = true := by
                      simp [providerAccepts, akAccepts, hres, hp]
                    have hF : fetch_main_stock_data env symbol
                        = ([Provider.akshare], Resolution.resolved Provider.akshare p) := by
                      simp [fetch_main_stock_data, hdom, hak, hres, hp]
                    obtain ⟨c1, c2⟩ := cascade_conj_ak env symbol p hF haka
                    exact ⟨fun h => by simp [hdom] at h,
                      fun _ _ => by rw [hF, haka]; rfl, c1, c2⟩
          | raises =>
              have hakf : providerAccepts env symbol Provider.akshare = false := by
                simp [providerAccepts, akAccepts, hres]
              have hF : fetch_main_stock_data env symbol
                  = ([Provider.akshare, Provider.yfinance], yf_step env.yf) := by
                simp [fetch_main_stock_data, hdom, hak, hres]
              obtain ⟨c1, c2⟩ := cascade_conj_both env symbol hF hakf
              exact ⟨fun h => by simp [hdom] at h,
                fun _ _ => by rw [hF, hakf]; rfl, c1, c2⟩
          | degraded =>
              have hakf : providerAccepts env symbol Provider.akshare = false := by
                simp [providerAccepts, akAccepts, hres]
              have hF : fetch_main_stock_data env symbol
                  = ([Provider.akshare, Provider.yfinance], yf_step env.yf) := by
                simp [fetch_main_stock_data, hdom, hak, hres]
              obtain ⟨c1, c2⟩ := cascade_conj_both env symbol hF hakf
              exact ⟨fun h => by simp [hdom] at h,
                fun _ _ => by rw [hF, hakf]; rfl, c1, c2⟩

/-- Outcome of a Python call as the caller observes it: an exception escaped
the call, or the call returned normally with a value. -/
inductive PyOutcome (α : Type) where
  | raised : PyOutcome α
  | returns : α → PyOutcome α
deriving DecidableEq

/-- Model of a full call to `fetch_main_stock_data` (source lines 253-319),
distinguishing a raised exception escaping the call from a normal return.
Both provider blocks sit inside `try/except` (AkShare at lines 271-278, the
`yfinance` fallback at lines 282-317), and the failure epilogue of the
`except` branch is the statement `return None, None, None, symbol` at line
319 — a normal return of the unresolved sentinel tuple.  No path of the
function body re-raises, so a call always returns, carrying the outcome of
the cascade. -/
def fetch_main_stock_data_py (env : CascadeEnv) (symbol : String) :
    PyOutcome Resolution :=
  PyOutcome.returns (fetch_main_stock_data env symbol).2

/-- Environment in which every configured provider fails: AkShare is loaded
but its inner fetch fails, and the `yfinance` call raises. -/
def cascadeEnvFail : CascadeEnv :=
  { ak_loaded := true
    akInner := AkInner.fails
    yf := YfOutcome.raises }

/-- C4 counterexample: for the domestic symbol `600519.SS` in an environment
where both attempted providers fail, the exhausted cascade does NOT raise:
the call returns normally, carrying the unresolved sentinel
`(None, None, None, symbol)` of source line 319.  The claim's final clause —
that after every configured provider has failed the function raises
`UnresolvedSymbolError` — is therefore false on the code: no exception of
any kind escapes the call. -/
theorem cascade_exhaustion_returns_sentinel :
    providerAccepts cascadeEnvFail ("600519.SS") Provider.akshare = false ∧
    providerAccepts cascadeEnvFail ("600519.SS") Provider.yfinance = false ∧
    (fetch_main_stock_data cascadeEnvFail ("600519.SS")).1
        = [Provider.akshare, Provider.yfinance] ∧
    fetch_main_stock_data_py cascadeEnvFail ("600519.SS")
        = PyOutcome.returns Resolution.unresolved ∧
    fetch_main_stock_data_py cascadeEnvFail ("600519.SS")
        ≠ (PyOutcome.raised : PyOutcome Resolution) := by
  decide

/-- C4 amended: the single-symbol cascade tries providers in the priority
order of the symbol class — a non-domestic symbol skips AkShare entirely and
goes straight to `yfinance`; a domestic symbol with the AkShare module
loaded attempts AkShare first and `yfinance` only if AkShare is not accepted
— it resolves with (exactly) the first provider whose result carries a valid
price, falling through on provider failure or missing price; the outcome is
unresolved precisely when every attempted provider failed, and in that case
the call does not raise: it returns the unresolved sentinel
`(None, None, None, symbol)` (the outcome the specification names
`UnresolvedSymbolError` is realized as this sentinel return, never as a
raised exception). -/
theorem cascade_resolution (env : CascadeEnv) (symbol : String) :
    (is_domestic symbol = false →
      (fetch_main_stock_data env symbol).1 = [Provider.yfinance]) ∧
    (is_domestic symbol = true → env.ak_loaded = true →
      (fetch_main_stock_data env symbol).1 =
        if providerAccepts env symbol Provider.akshare = true then [Provider.akshare]
        else [Provider.akshare, Provider.yfinance]) ∧
    ((fetch_main_stock_data env symbol).2 = Resolution.unresolved ↔
      ∀ p ∈ (fetch_main_stock_data env symbol).1, providerAccepts env symbol p = false) ∧
    (∀ q price, (fetch_main_stock_data env symbol).2 = Resolution.resolved q price →
      providerAccepts env symbol q = true ∧
        (fetch_main_stock_data env symbol).1.getLast? = some q) ∧
    fetch_main_stock_data_py env symbol ≠ (PyOutcome.raised : PyOutcome Resolution) ∧
    ((∀ p ∈ (fetch_main_stock_data env symbol).1, providerAccepts env symbol p = false) →
      fetch_main_stock_data_py env symbol = PyOutcome.returns Resolution.unresolved) := by
  obtain ⟨c1, c2, c3, c4⟩ := cascade_resolution_core env symbol
  refine ⟨c1, c2, c3, c4, ?_, ?_⟩
  · simp [fetch_main_stock_data_py]
  · intro hall
    rw [fetch_main_stock_data_py, c3.mpr hall]

/-- Witness environment for C4: AkShare loaded and returning a valid price,
`yfinance` raising. -/
def cascadeEnvW : CascadeEnv :=
  { ak_loaded := true
    akInner := AkInner.ok (some 5)
    yf := YfOutcome.raises }

/-- Witness for the amended C4: for the domestic symbol `600519.SS` in
`cascadeEnvW` only AkShare is attempted and it resolves; in `cascadeEnvFail`
every attempted provider fails and the call returns the unresolved sentinel.
-/
theorem cascade_resolution_witness :
    (fetch_main_stock_data cascadeEnvW ("600519.SS")).1 = [Provider.akshare] ∧
    fetch_main_stock_data_py cascadeEnvFail ("600519.SS")
        = PyOutcome.returns Resolution.unresolved := by
  constructor
  · have h := (cascade_resolution cascadeEnvW ("600519.SS")).2.1 (by decide) (by decide)
    rw [h]
    decide
  · exact (cascade_resolution cascadeEnvFail ("600519.SS")).2.2.2.2.2 (by decide)

/-- One row of the peer-comparison table built by `get_stock_basic_info`
(source lines 97-108), with the Chinese column labels renamed: `name` 名称,
`mktcap_b` 市值(B), `gross_margin_pct` 毛利率%, `revenue_growth_pct` 营收增长%. -/
structure BasicInfo where
  name : String
  mktcap_b : ℚ
  gross_margin_pct : ℚ
  revenue_growth_pct : ℚ
deriving DecidableEq

/-- The `MARKET_GROUPS` peer-group lists (source lines 63-68). -/
def us_tech_group : List String :=
  [("AAPL"), ("MSFT"), ("GOOG"), ("AMZN"), ("META"), ("TSLA"), ("NVDA"), ("AMD"),
   ("TSM"), ("ASML"), ("BABA"), ("PDD")]

/-- The US value peer group. -/
def us_value_group : List String :=
  [("BRK-B"), ("V"), ("MA"), ("COST"), ("JPM"), ("JNJ"), ("PG"), ("XOM"), ("KO"),
   ("PEP"), ("MCD"), ("LLY"), ("UNH")]

/-- The Hong Kong core peer group. -/
def hk_core_group : List String :=
  [("0700.HK"), ("9988.HK"), ("3690.HK"), ("0388.HK"), ("0941.HK"), ("0883.HK"),
   ("1810.HK"), ("1024.HK"), ("1299.HK"), ("0005.HK")]

/-- The A-share core peer group (17 tickers). -/
def ashare_core_group : List String :=
  [("600519.SS"), ("000858.SZ"), ("600900.SS"), ("300750.SZ"), ("600036.SS"),
   ("601318.SS"), ("600188.SS"), ("601088.SS"), ("600887.SS"), ("600585.SS"),
   ("002714.SZ"), ("600030.SS"), ("002594.SZ"), ("300760.SZ"), ("300502.SZ"),
   ("600580.SS"), ("600276.SS")]

/-- The `MARKET_GROUPS` dictionary in insertion order. -/
def MARKET_GROUPS : List (String × List String) :=
  [(("🇺🇸 美股科技 (Tech)"), us_tech_group),
   (("🇺🇸 美股护城河 (Value)"), us_value_group),
   (("🇭🇰 港股核心 (Core)"), hk_core_group),
   (("🇨🇳 A股核心 (Core)"), ashare_core_group)]

/-- Model of `load_peers_data` (source lines 109-119): truncate the group to
its first 10 tickers (`safe_group = target_group[:10]`), fetch each through
`get_stock_basic_info` (modelled as an oracle that yields `None` on failure)
and keep the non-`None` rows, which become the cached peer DataFrame. -/
def load_peers_data (fetch_info : String → Option BasicInfo)
    (target_group : List String) : List BasicInfo :=
  let safe_group := target_group.take 10
  ((safe_group.map fetch_info).reduceOption : List BasicInfo)

theorem load_peers_eq_filterMap (fetch_info : String → Option BasicInfo)
    (target_group : List String) :
    load_peers_data fetch_info target_group = (target_group.take 10).filterMap fetch_info := by
  rw [load_peers_data, List.reduceOption, List.filterMap_map]
  rfl

/-- C10: the peer-group loader truncates every group to its first 10 tickers
before dispatching any fetch: the computed comparison rows are exactly those
of the truncated list, at most 10 rows are ever produced, the result is
unchanged if the fetcher is altered on every ticker past the tenth (so those
tickers are never fetched), every returned row comes from one of the first
10 tickers, and the configured A-share core group has 17 members, so its
last 7 tickers can never appear. -/
theorem load_peers_truncates (fetch_info fetch_info2 : String → Option BasicInfo)
    (group : List String) :
    load_peers_data fetch_info group = load_peers_data fetch_info (group.take 10) ∧
    (load_peers_data fetch_info group).length ≤ 10 ∧
    ((∀ t ∈ group.take 10, fetch_info t = fetch_info2 t) →
      load_peers_data fetch_info group = load_peers_data fetch_info2 group) ∧
    (∀ r ∈ load_peers_data fetch_info group, ∃ t ∈ group.take 10, fetch_info t = some r) ∧
    (MARKET_GROUPS.find? (fun p => decide (p.1 = ("🇨🇳 A股核心 (Core)"))))
        = some ((("🇨🇳 A股核心 (Core)")), ashare_core_group) ∧
    ashare_core_group.length = 17 := by
  refine ⟨?_, ?_, ?_, ?_, by decide, by decide⟩
  · rw [load_peers_eq_filterMap, load_peers_eq_filterMap, List.take_take]
    norm_num
  · rw [load_peers_eq_filterMap]
    exact le_trans (List.length_filterMap_le fetch_info (group.take 10))
      (List.length_take_le 10 group)
  · intro hagree
    rw [load_peers_eq_filterMap, load_peers_eq_filterMap]
    exact List.filterMap_congr hagree
  · intro r hr
    rw [load_peers_eq_filterMap] at hr
    exact List.mem_filterMap.mp hr

/-- Witness oracle for C10 returning a row for every ticker. -/
def peersOracleA : String → Option BasicInfo := fun t =>
  some { name := t, mktcap_b := 1, gross_margin_pct := 2, revenue_growth_pct := 3 }

/-- Witness oracle for C10 that fails on `002714.SZ`, the eleventh ticker of
the A-share core group (outside the truncation window). -/
def peersOracleB : String → Option BasicInfo := fun t =>
  if t = ("002714.SZ") then none
  else some { name := t, mktcap_b := 1, gross_margin_pct := 2, revenue_growth_pct := 3 }

/-- Witness for C10: the two oracles agree on the first 10 tickers of the
A-share group, so the loaded peer rows coincide even though the oracles
differ on the eleventh ticker. -/
theorem load_peers_truncates_witness :
    load_peers_data peersOracleA ashare_core_group
      = load_peers_data peersOracleB ashare_core_group :=
  (load_peers_truncates peersOracleA peersOracleB ashare_core_group).2.2.1 (by decide)
